import Mathlib

/-!
Verification of the debcomprt chroot lifecycle manager.

This file shallowly embeds the core functions of the program — `locateField`,
`reverse`, `mountChrootFileSystems`, `unMountChrootFileSystems`, `Chroot` and
the exit closure it returns — as Lean functions, and proves the specified
properties about them.

Modelling conventions:
- Machine-level OS effects (stat/mkdir/mount/unmount syscalls, chroot, chdir)
  are mediated by an environment `Env` of oracles: boolean success flags for
  the one-shot syscalls, per-path oracles for stat/mkdir/mount, and a
  schedule `usched : Nat → SysRes` giving the result of the n-th unmount
  syscall issued by the run (unmount results genuinely vary between calls on
  the same path, which is what the retry logic is for).
- Process-global state (root directory inode, working directory inode, the
  mount table, open directory references) is threaded explicitly as `World`.
  A ghost trace of events records the order of unmount attempts, sleeps and
  root/directory changes.
- Go slices passed by value share their backing array with the caller; the
  in-place `reverse` therefore mutates the caller's view.  The model returns
  the final contents of such a slice explicitly (`finalDevs`).
- Unbounded `for {}` loops are modelled with an explicit fuel parameter; the
  `hang`/`fuelOut` results mark runs that exhaust fuel, i.e. runs in which the
  original loop has not terminated within that many iterations.
- Go `int` indices are modelled as `Int`; an out-of-range slice access is a
  runtime panic, modelled as the `panicked` result.
-/

namespace Debcomprt

/-! ### File permission constants (from the const block of the source) -/

def OS_READ : Nat := 4
def OS_WRITE : Nat := 2
def OS_EX : Nat := 1
def OS_USER_SHIFT : Nat := 6
def OS_GROUP_SHIFT : Nat := 3
def OS_OTH_SHIFT : Nat := 0
def OS_USER_R : Nat := OS_READ <<< OS_USER_SHIFT
def OS_USER_W : Nat := OS_WRITE <<< OS_USER_SHIFT
def OS_USER_X : Nat := OS_EX <<< OS_USER_SHIFT
def OS_GROUP_R : Nat := OS_READ <<< OS_GROUP_SHIFT
def OS_GROUP_W : Nat := OS_WRITE <<< OS_GROUP_SHIFT
def OS_GROUP_X : Nat := OS_EX <<< OS_GROUP_SHIFT
def OS_OTH_R : Nat := OS_READ <<< OS_OTH_SHIFT
def OS_OTH_W : Nat := OS_WRITE <<< OS_OTH_SHIFT
def OS_OTH_X : Nat := OS_EX <<< OS_OTH_SHIFT

/-! ### FieldLocator (`locateField`) -/

/-- Result of a `locateField` run.  Go returns `(string, error)`; `ok v`
models `(v, nil)`, `ioError` models the early `("", err)` return when
`os.Open` fails, and `panicked` models a Go runtime panic from an
out-of-range slice index (the function has no recover). -/
inductive LocateResult
  | ok (value : String)
  | ioError
  | panicked
deriving Repr, DecidableEq

/-- Go slice indexing `fields[i]` with an `int` index: defined when
`0 ≤ i < len`, a runtime panic otherwise. -/
def goIndex (fields : List String) (i : Int) : Option String :=
  if h : 0 ≤ i ∧ i.toNat < fields.length then some (fields.get ⟨i.toNat, h.2⟩)
  else none

/-- Embeds the scanner loop of `locateField`: for each line, split it; if
`len(fields) <= matchIndex` skip the line; otherwise if the match field
satisfies the pattern return the field at `returnIndex` (no bounds check in
the source: out of range panics); otherwise continue.  After the last line,
return `("", nil)`. -/
def locateFieldLoop (split : String → List String) (matchIndex returnIndex : Int)
    (matchp : String → Bool) : List String → LocateResult
  | [] => .ok ""
  | line :: rest =>
    let fields := split line
    if (fields.length : Int) ≤ matchIndex then
      locateFieldLoop split matchIndex returnIndex matchp rest
    else
      match goIndex fields matchIndex with
      | none => .panicked
      | some f =>
        if matchp f then
          match goIndex fields returnIndex with
          | none => .panicked
          | some r => .ok r
        else
          locateFieldLoop split matchIndex returnIndex matchp rest

/-- Embeds `locateField`.  The file is abstracted to its list of scanned
lines (`none` models an `os.Open` failure); the compiled field-separator
regex is abstracted to the splitting function it denotes, and the match
regex to the predicate `matchp` (`FindStringIndex ≠ nil`). -/
def locateField (file : Option (List String)) (split : String → List String)
    (matchIndex returnIndex : Int) (matchp : String → Bool) : LocateResult :=
  match file with
  | none => .ioError
  | some lines => locateFieldLoop split matchIndex returnIndex matchp lines

/-- Accumulating splitter on the colon character (structural recursion, so
concrete runs reduce inside the kernel). -/
def splitOnColonAux : List Char → List Char → List String
  | [], acc => [String.mk acc.reverse]
  | x :: xs, acc =>
    if x = ':' then String.mk acc.reverse :: splitOnColonAux xs []
    else splitOnColonAux xs (x :: acc)

/-- Denotation of the separator regex `":"`: splitting on a literal colon
(same behavior as `Split(line, -1)` with that pattern: `n` separators give
`n+1` fields, an empty line gives one empty field). -/
def colonSplit (s : String) : List String := splitOnColonAux s.data []

/-- Does this line "hit", i.e. does the loop body return on it: enough fields
for `matchIndex` and the match field satisfies the pattern. -/
def lineHit (split : String → List String) (matchIndex : Int)
    (matchp : String → Bool) (line : String) : Bool :=
  let fields := split line
  if (fields.length : Int) ≤ matchIndex then false
  else
    match goIndex fields matchIndex with
    | none => false
    | some f => matchp f

/-- Example identity-file contents used by the spec's field-lookup scenario. -/
def passwdLines : List String :=
  ["alice:x:1000:1000:Alice:/home/alice:/bin/bash",
   "bob:x:1224:1224:Bob:/home/bob:/bin/bash"]

/-! ### The in-place `reverse` helper -/

/-- Parallel swap `(*arr)[i], (*arr)[j] = (*arr)[j], (*arr)[i]`: read both
elements, then write both. In-range in every use (the loop keeps
`0 ≤ i < j < len`); out of range it is the identity. -/
def swapT (l : List String) (i j : Nat) : List String :=
  match l.get? i, l.get? j with
  | some x, some y => (l.set i y).set j x
  | _, _ => l

/-- Embeds the loop of `reverse`: `for i, j := 0, len-1; i < j; i, j = i+1, j-1`. -/
def reverseGoLoop (l : List String) (i j : Nat) : List String :=
  if i < j then reverseGoLoop (swapT l i j) (i + 1) (j - 1) else l
termination_by j - i
decreasing_by simp_wf; omega

/-- Embeds `reverse(arr *[]string)`: the value held by the caller's slice
after the call (the swaps act on the shared backing array). -/
def reverseGo (l : List String) : List String :=
  reverseGoLoop l 0 (l.length - 1)

theorem swapT_length (l : List String) (i j : Nat) : (swapT l i j).length = l.length := by
  unfold swapT
  cases hi : l.get? i <;> cases hj : l.get? j <;> simp

theorem swapT_getElem? (l : List String) (i j : Nat) (hi : i < l.length) (hj : j < l.length)
    (k : Nat) :
    (swapT l i j)[k]? =
      if k = j then l[i]? else if k = i then l[j]? else l[k]? := by
  have hi' : l.get? i = some l[i] := by
    rw [List.get?_eq_getElem?, List.getElem?_eq_getElem hi]
  have hj' : l.get? j = some l[j] := by
    rw [List.get?_eq_getElem?, List.getElem?_eq_getElem hj]
  unfold swapT
  rw [hi', hj']
  by_cases hkj : k = j
  · subst hkj
    rw [if_pos rfl, List.getElem?_set_self (by simpa using hj),
      List.getElem?_eq_getElem hi]
  · rw [if_neg hkj, List.getElem?_set_ne (Ne.symm hkj)]
    by_cases hki : k = i
    · subst hki
      rw [if_pos rfl, List.getElem?_set_self hi, List.getElem?_eq_getElem hj]
    · rw [if_neg hki, List.getElem?_set_ne (Ne.symm hki)]

theorem reverseGoLoop_getElem? (n : Nat) :
    ∀ (l : List String) (i j : Nat), j - i ≤ n → j < l.length →
      ∀ k, (reverseGoLoop l i j)[k]? =
        if i ≤ k ∧ k ≤ j then l[i + j - k]? else l[k]? := by
  induction n with
  | zero =>
    intro l i j hn hj k
    have hij : ¬ i < j := by omega
    rw [reverseGoLoop, if_neg hij]
    by_cases hk : i ≤ k ∧ k ≤ j
    · have : i + j - k = k := by omega
      rw [if_pos hk, this]
    · rw [if_neg hk]
  | succ n ih =>
    intro l i j hn hj k
    by_cases hij : i < j
    · rw [reverseGoLoop, if_pos hij]
      have hlen : (swapT l i j).length = l.length := swapT_length l i j
      have hj' : j - 1 < (swapT l i j).length := by omega
      have hmeas : j - 1 - (i + 1) ≤ n := by omega
      rw [ih (swapT l i j) (i + 1) (j - 1) hmeas hj' k]
      have hi : i < l.length := by omega
      by_cases hk : i + 1 ≤ k ∧ k ≤ j - 1
      · rw [if_pos hk]
        have harg : i + 1 + (j - 1) - k = i + j - k := by omega
        rw [harg, swapT_getElem? l i j hi hj]
        have h1 : ¬ i + j - k = j := by omega
        have h2 : ¬ i + j - k = i := by omega
        rw [if_neg h1, if_neg h2, if_pos (by omega : i ≤ k ∧ k ≤ j)]
      · rw [if_neg hk, swapT_getElem? l i j hi hj]
        by_cases hkj : k = j
        · subst hkj
          rw [if_pos rfl, if_pos (by omega : i ≤ k ∧ k ≤ k)]
          have : i + k - k = i := by omega
          rw [this]
        · rw [if_neg hkj]
          by_cases hki : k = i
          · subst hki
            rw [if_pos rfl, if_pos (by omega : k ≤ k ∧ k ≤ j)]
            have : k + j - k = j := by omega
            rw [this]
          · rw [if_neg hki, if_neg (by omega : ¬ (i ≤ k ∧ k ≤ j))]
    · rw [reverseGoLoop, if_neg hij]
      by_cases hk : i ≤ k ∧ k ≤ j
      · have : i + j - k = k := by omega
        rw [if_pos hk, this]
      · rw [if_neg hk]

/-- The two-pointer swap loop of `reverse` computes list reversal. -/
theorem reverseGo_eq (l : List String) : reverseGo l = l.reverse := by
  cases l with
  | nil =>
    rw [reverseGo, reverseGoLoop]
    simp
  | cons a t =>
    apply List.ext_getElem?
    intro k
    have hlen : (a :: t).length - 1 < (a :: t).length := by simp
    rw [reverseGo, reverseGoLoop_getElem? ((a :: t).length - 1) (a :: t) 0
      ((a :: t).length - 1) le_rfl hlen k]
    by_cases hk : k < (a :: t).length
    · have hcond : 0 ≤ k ∧ k ≤ (a :: t).length - 1 := by
        simp only [List.length_cons] at hk ⊢; omega
      rw [if_pos hcond]
      have harg : 0 + ((a :: t).length - 1) - k = (a :: t).length - 1 - k := by omega
      rw [harg, List.getElem?_reverse hk]
    · have hcond : ¬ (0 ≤ k ∧ k ≤ (a :: t).length - 1) := by
        simp only [List.length_cons] at hk ⊢; omega
      rw [if_neg hcond]
      have h1 : (a :: t)[k]? = none := List.getElem?_eq_none (by omega)
      have h2 : (a :: t).reverse[k]? = none := by
        apply List.getElem?_eq_none
        simp only [List.length_reverse]
        omega
      rw [h1, h2]

/-! ### Process and filesystem state -/

/-- Result of one `syscall.Unmount` call: success, `EBUSY`, `EINVAL`
("not a mount point"), or any other errno. -/
inductive SysRes
  | ok
  | ebusy
  | einval
  | eother
deriving Repr, DecidableEq

/-- Ghost trace events, recording the order of externally visible steps. -/
inductive Ev
  | unmount (path : String)
  | sleep (secs : Nat)
  | fchdirRoot
  | chroot (arg : String)
  | chdir (dir : Nat)
deriving Repr, DecidableEq

/-- Process-global OS state.  Directories are identified by inode numbers;
`mounts` is the set of bind-mount target paths currently mounted, in mount
order; `openRefs` counts the open directory references to the pre-swap root
held by this process. -/
structure PState where
  root : Nat
  cwd : Nat
  mounts : List String
  openRefs : Nat
deriving Repr, DecidableEq

/-- A world: process state, the count of unmount syscalls issued so far
(indexing into the unmount schedule), and the ghost event trace. -/
structure World where
  ps : PState
  tick : Nat
  tr : List Ev
deriving Repr, DecidableEq

/-- Oracles for the OS effects.  `usched n` is the result the kernel gives
the `n`-th unmount syscall of the run; `notExist p` tells whether
`os.Stat p` reports `ErrNotExist`; `mkdirOk p mode` and `mountOk p` tell
whether `os.Mkdir`/`syscall.Mount` succeed on that path; the remaining
flags give the outcome of the corresponding one-shot syscalls in `Chroot`
and the exit closure. -/
structure Env where
  notExist : String → Bool
  mkdirOk : String → Nat → Bool
  mountOk : String → Bool
  usched : Nat → SysRes
  getwdOk : Bool
  openRootOk : Bool
  chrootOk : Bool
  chdirRootOk : Bool
  fchdirOk : Bool
  chrootDotOk : Bool
  chdirReturnOk : Bool

/-- Errors the embedded functions can return (Go `error` values). -/
inductive GoErr
  | mkdirErr (path : String)
  | mountErr (path : String)
  | errno (r : SysRes)
  | unmountNamed (dev : String)
  | getwdErr
  | openErr
  | chrootErr
  | chdirErr
  | fchdirErr
deriving Repr, DecidableEq

/-- Models `filepath.Join(target, filesys)` for the absolute device paths
used here (`filesys` starts with `/` and `target` has no trailing slash). -/
def joinPath (target filesys : String) : String := target ++ filesys

/-- Models one `syscall.Unmount(path, 0x0)` call: the kernel answers
according to the schedule; on success the path leaves the mount table.  The
call is recorded in the trace and advances the schedule position. -/
def unmountCall (env : Env) (w : World) (path : String) : SysRes × World :=
  (env.usched w.tick,
    { ps := { w.ps with
        mounts := if env.usched w.tick = .ok then w.ps.mounts.erase path else w.ps.mounts },
      tick := w.tick + 1,
      tr := w.tr ++ [.unmount path] })

/-- Models `time.Sleep(secs * time.Second)`. -/
def sleepEv (w : World) (secs : Nat) : World :=
  { w with tr := w.tr ++ [.sleep secs] }

/-! ### MountManager: `unMountChrootFileSystems` -/

/-- Result of the phase-1 inner `for {}` loop on one device: `next` breaks
out to the next device (carrying the updated backlog), `fail` is the
`return err` of the final `else` branch, `fuelOut` marks an unterminated
loop. -/
inductive LoopOut
  | next (w : World) (backlog : List String)
  | fail (w : World) (e : GoErr)
  | fuelOut (w : World) (backlog : List String)
deriving Repr, DecidableEq

/-- Phase-1 inner loop of `unMountChrootFileSystems` for one device, with
the source's branch order: `err == nil` → break; `retries == 1` → print,
append the device to the backlog (and, the source having no `break` here,
loop again); `EBUSY` → bump `retries`, sleep 1s, loop; `EINVAL` → break;
otherwise → return the error. -/
def p1Loop (env : Env) (target dev : String) :
    Nat → Nat → List String → World → LoopOut
  | 0, _, backlog, w => .fuelOut w backlog
  | fuel + 1, retries, backlog, w =>
    match unmountCall env w (joinPath target dev) with
    | (r, w') =>
      if r = .ok then .next w' backlog
      else if retries = 1 then p1Loop env target dev fuel retries (backlog ++ [dev]) w'
      else if r = .ebusy then p1Loop env target dev fuel (retries + 1) backlog (sleepEv w' 1)
      else if r = .einval then .next w' backlog
      else .fail w' (.errno r)

/-- Phase 1 over the (already reversed) device list, threading the backlog. -/
def p1Outer (env : Env) (target : String) (fuel : Nat) :
    List String → List String → World → LoopOut
  | [], backlog, w => .next w backlog
  | dev :: devs, backlog, w =>
    match p1Loop env target dev fuel 0 backlog w with
    | .next w' backlog' => p1Outer env target fuel devs backlog' w'
    | .fail w' e => .fail w' e
    | .fuelOut w' backlog' => .fuelOut w' backlog'

/-- Result of the phase-2 inner loop on one backlogged device. -/
inductive P2Out
  | next (w : World)
  | fail (w : World) (e : GoErr)
  | fuelOut (w : World)
deriving Repr, DecidableEq

/-- Phase-2 inner loop of `unMountChrootFileSystems` for one backlogged
device: `err == nil` → break; `retries == 1` → return an error naming the
device; `EBUSY` → bump `retries`, sleep 2s, loop; `EINVAL` → break;
otherwise → return the raw error. -/
def p2Loop (env : Env) (target dev : String) : Nat → Nat → World → P2Out
  | 0, _, w => .fuelOut w
  | fuel + 1, retries, w =>
    match unmountCall env w (joinPath target dev) with
    | (r, w') =>
      if r = .ok then .next w'
      else if retries = 1 then .fail w' (.unmountNamed dev)
      else if r = .ebusy then p2Loop env target dev fuel (retries + 1) (sleepEv w' 2)
      else if r = .einval then .next w'
      else .fail w' (.errno r)

/-- Phase 2 over the backlog, in the order it was built. -/
def p2Outer (env : Env) (target : String) (fuel : Nat) :
    List String → World → P2Out
  | [], w => .next w
  | dev :: devs, w =>
    match p2Loop env target dev fuel 0 w with
    | .next w' => p2Outer env target fuel devs w'
    | .fail w' e => .fail w' e
    | .fuelOut w' => .fuelOut w'

/-- Overall outcome of `unMountChrootFileSystems`: `ok` models a `nil`
return, `err` a non-nil error return, `hang` a run whose loops did not
terminate within the fuel bound. -/
inductive UOut
  | ok (w : World)
  | err (w : World) (e : GoErr)
  | hang (w : World)
deriving Repr, DecidableEq

/-- The world carried by a `UOut`. -/
def outWorld : UOut → World
  | .ok w => w
  | .err w _ => w
  | .hang w => w

/-- Result record for `unMountChrootFileSystems`.  `finalDevs` is the
content of the caller's `devicesToMount` slice after the call (the in-place
`reverse` mutates the shared backing array); `backlog` is the ghost value
of `fileSystemsUnmountBacklog` after phase 1. -/
structure UnmountRun where
  finalDevs : List String
  backlog : List String
  out : UOut
deriving Repr, DecidableEq

/-- Embeds `unMountChrootFileSystems(devicesToMount, target)`: reverse the
slice in place, run phase 1 over it collecting the backlog, then run
phase 2 over the backlog. -/
def unMountChrootFileSystems (env : Env) (fuel : Nat) (devicesToMount : List String)
    (target : String) (w : World) : UnmountRun :=
  let rdevs := reverseGo devicesToMount
  match p1Outer env target fuel rdevs [] w with
  | .fail w' e => ⟨rdevs, [], .err w' e⟩
  | .fuelOut w' backlog => ⟨rdevs, backlog, .hang w'⟩
  | .next w' backlog =>
    match p2Outer env target fuel backlog w' with
    | .next w'' => ⟨rdevs, backlog, .ok w''⟩
    | .fail w'' e => ⟨rdevs, backlog, .err w'' e⟩
    | .fuelOut w'' => ⟨rdevs, backlog, .hang w''⟩

/-! ### MountManager: `mountChrootFileSystems` -/

/-- Embeds the `switch filesys` choosing the mode for a mount-point
directory created on demand: read+execute for `/sys` and `/proc`,
read+write+execute for `/dev`, `/dev/pts` and the default case (the
`os.ModeDir` type flag is not part of the permission bits). -/
def fileModeFor (filesys : String) : Nat :=
  if filesys = "/sys" then
    OS_USER_R ||| OS_USER_X ||| OS_GROUP_R ||| OS_GROUP_X ||| OS_OTH_R ||| OS_OTH_X
  else if filesys = "/proc" then
    OS_USER_R ||| OS_USER_X ||| OS_GROUP_R ||| OS_GROUP_X ||| OS_OTH_R ||| OS_OTH_X
  else if filesys = "/dev" then
    OS_USER_R ||| OS_USER_W ||| OS_USER_X ||| OS_GROUP_R ||| OS_GROUP_X ||| OS_OTH_R ||| OS_OTH_X
  else if filesys = "/dev/pts" then
    OS_USER_R ||| OS_USER_W ||| OS_USER_X ||| OS_GROUP_R ||| OS_GROUP_X ||| OS_OTH_R ||| OS_OTH_X
  else
    OS_USER_R ||| OS_USER_W ||| OS_USER_X ||| OS_GROUP_R ||| OS_GROUP_X ||| OS_OTH_R ||| OS_OTH_X

/-- Loop body condition: binding this device succeeds, i.e. the mount-point
directory is created if absent and the bind mount succeeds. -/
def devBindOk (env : Env) (target dev : String) : Bool :=
  let mp := joinPath target dev
  (!env.notExist mp || env.mkdirOk mp (fileModeFor dev)) && env.mountOk mp

/-- The error the loop body returns for a failing device: the `os.Mkdir`
error when the mount point was absent and could not be created, otherwise
the `syscall.Mount` error. -/
def devBindErr (env : Env) (target dev : String) : Option GoErr :=
  let mp := joinPath target dev
  if env.notExist mp && !env.mkdirOk mp (fileModeFor dev) then some (.mkdirErr mp)
  else if !env.mountOk mp then some (.mountErr mp)
  else none

/-- Loop of `mountChrootFileSystems` with accumulator `fileSystemsMounted`:
for each device, `os.Stat` the mount point; if `ErrNotExist`, `os.Mkdir` it
with the mode from the switch (returning the accumulator and the error on
failure); then bind mount it (again returning on failure); on success
append the device and continue. -/
def mountLoop (env : Env) (target : String) :
    List String → List String → World → List String × Option GoErr × World
  | [], acc, w => (acc, none, w)
  | dev :: devs, acc, w =>
    let mp := joinPath target dev
    if env.notExist mp && !env.mkdirOk mp (fileModeFor dev) then
      (acc, some (.mkdirErr mp), w)
    else if !env.mountOk mp then
      (acc, some (.mountErr mp), w)
    else
      mountLoop env target devs (acc ++ [dev])
        { w with ps := { w.ps with mounts := w.ps.mounts ++ [mp] } }

/-- Embeds `mountChrootFileSystems(devicesToMount, target)`: returns the
devices actually bound (`fileSystemsMounted`), the error if any, and the
updated world (each successful bind mount appends its mount point to the
mount table). -/
def mountChrootFileSystems (env : Env) (devicesToMount : List String)
    (target : String) (w : World) : List String × Option GoErr × World :=
  mountLoop env target devicesToMount [] w

/-! ### ChrootSession: `Chroot` and its exit closure -/

/-- The canonical device set bound by `Chroot`. -/
def canonicalDevices : List String := ["/sys", "/proc", "/dev", "/dev/pts"]

/-- State captured by the exit closure `Chroot` returns: the working
directory to return to, the open reference to the pre-swap root, and the
device list and target for teardown. -/
structure SessionHandle where
  returnDir : Nat
  rootRef : Nat
  devicesToMount : List String
  target : String
deriving Repr, DecidableEq

/-- Result of `Chroot`: `ret handle errs w` models returning `(f, errs)`
(the handle is the closure's captured state; `none` models a `nil`
function), `hang` marks a run whose unmount loops did not terminate. -/
inductive ChrootRes
  | ret (handle : Option SessionHandle) (errs : List GoErr) (w : World)
  | hang (w : World)
deriving Repr, DecidableEq

/-- The deferred unwind in `Chroot`, run on every error return after the
bind phase: `root.Close()` then `unMountChrootFileSystems(fileSystemsMounted,
target)`, appending the unmount error to `errs` if it fails. -/
def chrootUnwind (env : Env) (fuel : Nat) (bound : List String) (target : String)
    (errs : List GoErr) (w : World) : ChrootRes :=
  let w1 := { w with ps := { w.ps with openRefs := w.ps.openRefs - 1 } }
  match (unMountChrootFileSystems env fuel bound target w1).out with
  | .ok w2 => .ret none errs w2
  | .err w2 e => .ret none (errs ++ [e]) w2
  | .hang w2 => .hang w2

/-- Embeds `Chroot(target)`: capture the working directory (`os.Getwd`) and
an open reference to the current root (`os.Open("/")`), bind the canonical
devices, then `syscall.Chroot(target)` and `syscall.Chdir("/")`.  Any error
after the bind phase triggers the deferred unwind.  `tino` is the inode the
path `target` resolves to. -/
def Chroot (env : Env) (fuel : Nat) (target : String) (tino : Nat)
    (w : World) : ChrootRes :=
  if env.getwdOk = false then .ret none [.getwdErr] w
  else
    let returnDir := w.ps.cwd
    if env.openRootOk = false then .ret none [.openErr] w
    else
      let rootRef := w.ps.root
      let w1 := { w with ps := { w.ps with openRefs := w.ps.openRefs + 1 } }
      match mountChrootFileSystems env canonicalDevices target w1 with
      | (bound, some e, w2) => chrootUnwind env fuel bound target [e] w2
      | (bound, none, w2) =>
        if env.chrootOk = false then chrootUnwind env fuel bound target [.chrootErr] w2
        else
          let w3 := { w2 with ps := { w2.ps with root := tino }, tr := w2.tr ++ [.chroot target] }
          if env.chdirRootOk = false then chrootUnwind env fuel bound target [.chdirErr] w3
          else
            let w4 := { w3 with ps := { w3.ps with cwd := tino }, tr := w3.tr ++ [.chdir tino] }
            .ret (some ⟨returnDir, rootRef, canonicalDevices, target⟩) [] w4

/-- Result of the exit closure: `ret e w` models returning the error `e`
(`none` for `nil`), `hang` an unterminated unmount loop. -/
inductive ExitRes
  | ret (e : Option GoErr) (w : World)
  | hang (w : World)
deriving Repr, DecidableEq

/-- Embeds the closure returned by `Chroot`: `root.Chdir()` (fchdir to the
captured pre-swap root), `syscall.Chroot(".")` (reverse the root swap),
`os.Chdir(returnDir)` (restore the previous working directory), then
`unMountChrootFileSystems(devicesToMount, target)`; if the unmount fails,
`root.Close()` and return its error. -/
def chrootExit (env : Env) (fuel : Nat) (h : SessionHandle) (w : World) : ExitRes :=
  if env.fchdirOk = false then .ret (some .fchdirErr) w
  else
    let w1 := { w with ps := { w.ps with cwd := h.rootRef }, tr := w.tr ++ [.fchdirRoot] }
    if env.chrootDotOk = false then .ret (some .chrootErr) w1
    else
      let w2 := { w1 with ps := { w1.ps with root := w1.ps.cwd }, tr := w1.tr ++ [.chroot "."] }
      if env.chdirReturnOk = false then .ret (some .chdirErr) w2
      else
        let w3 := { w2 with ps := { w2.ps with cwd := h.returnDir }, tr := w2.tr ++ [.chdir h.returnDir] }
        match (unMountChrootFileSystems env fuel h.devicesToMount h.target w3).out with
        | .ok w4 => .ret none w4
        | .err w4 e => .ret (some e) { w4 with ps := { w4.ps with openRefs := w4.ps.openRefs - 1 } }
        | .hang w4 => .hang w4

/-! ### Concrete instances used by witnesses and counterexamples -/

/-- An unmount schedule from a finite prefix, answering `ok` afterwards. -/
def schedOf (l : List SysRes) : Nat → SysRes := fun n => l.getD n .ok

/-- A benign environment over a given unmount schedule: every stat reports
the mount point present, every mkdir/mount succeeds, every one-shot
syscall succeeds. -/
def mkEnv (sched : Nat → SysRes) : Env :=
  { notExist := fun _ => false, mkdirOk := fun _ _ => true, mountOk := fun _ => true,
    usched := sched, getwdOk := true, openRootOk := true, chrootOk := true,
    chdirRootOk := true, fchdirOk := true, chrootDotOk := true, chdirReturnOk := true }

/-- A small starting world. -/
def wBase : World :=
  { ps := { root := 7, cwd := 11, mounts := ["/t/dev"], openRefs := 0 }, tick := 0, tr := [] }

/-! ### Helper lemmas: frame preservation of the unmount loops -/

/-- Events a teardown may emit: unmount attempts and sleeps. -/
def isTeardownEv : Ev → Bool
  | .unmount _ => true
  | .sleep _ => true
  | _ => false

/-- The unmount machinery leaves the root, working directory and open
references untouched and only appends unmount/sleep events to the trace. -/
def Frame (w w' : World) : Prop :=
  w'.ps.root = w.ps.root ∧ w'.ps.cwd = w.ps.cwd ∧ w'.ps.openRefs = w.ps.openRefs ∧
    ∃ t, w'.tr = w.tr ++ t ∧ ∀ e ∈ t, isTeardownEv e = true

theorem Frame.refl (w : World) : Frame w w :=
  ⟨rfl, rfl, rfl, [], by simp, by simp⟩

theorem Frame.trans {w1 w2 w3 : World} (h12 : Frame w1 w2) (h23 : Frame w2 w3) :
    Frame w1 w3 := by
  obtain ⟨hr, hc, ho, t, ht, hall⟩ := h12
  obtain ⟨hr', hc', ho', t', ht', hall'⟩ := h23
  refine ⟨hr'.trans hr, hc'.trans hc, ho'.trans ho, t ++ t', ?_, ?_⟩
  · rw [ht', ht, List.append_assoc]
  · intro e he
    rcases List.mem_append.mp he with h | h
    · exact hall e h
    · exact hall' e h

theorem frame_unmountCall (env : Env) (w : World) (p : String) :
    Frame w (unmountCall env w p).2 := by
  refine ⟨rfl, rfl, rfl, [.unmount p], rfl, ?_⟩
  intro e he
  simp at he
  subst he
  rfl

theorem frame_sleepEv (w : World) (n : Nat) : Frame w (sleepEv w n) := by
  refine ⟨rfl, rfl, rfl, [.sleep n], rfl, ?_⟩
  intro e he
  simp at he
  subst he
  rfl

/-- The world carried by a `LoopOut`. -/
def loopOutWorld : LoopOut → World
  | .next w _ => w
  | .fail w _ => w
  | .fuelOut w _ => w

/-- The world carried by a `P2Out`. -/
def p2OutWorld : P2Out → World
  | .next w => w
  | .fail w _ => w
  | .fuelOut w => w

theorem p1Loop_frame (env : Env) (target dev : String) :
    ∀ (fuel retries : Nat) (backlog : List String) (w : World),
      Frame w (loopOutWorld (p1Loop env target dev fuel retries backlog w)) := by
  intro fuel
  induction fuel with
  | zero => intro retries backlog w; exact Frame.refl w
  | succ fuel ih =>
    intro retries backlog w
    rw [p1Loop]
    split
    rename_i r w' heq
    have hcall : Frame w w' := by
      have h := frame_unmountCall env w (joinPath target dev)
      rw [heq] at h
      exact h
    split
    · exact hcall
    split
    · exact hcall.trans (ih retries (backlog ++ [dev]) w')
    split
    · exact hcall.trans ((frame_sleepEv w' 1).trans (ih (retries + 1) backlog _))
    split
    · exact hcall
    · exact hcall

theorem p1Outer_frame (env : Env) (target : String) (fuel : Nat) :
    ∀ (devs backlog : List String) (w : World),
      Frame w (loopOutWorld (p1Outer env target fuel devs backlog w)) := by
  intro devs
  induction devs with
  | nil => intro backlog w; exact Frame.refl w
  | cons d ds ih =>
    intro backlog w
    rw [p1Outer]
    have hloop := p1Loop_frame env target d fuel 0 backlog w
    cases hres : p1Loop env target d fuel 0 backlog w with
    | next w' backlog' =>
      rw [hres] at hloop
      exact Frame.trans hloop (ih backlog' w')
    | fail w' e => rw [hres] at hloop; exact hloop
    | fuelOut w' backlog' => rw [hres] at hloop; exact hloop

theorem p2Loop_frame (env : Env) (target dev : String) :
    ∀ (fuel retries : Nat) (w : World),
      Frame w (p2OutWorld (p2Loop env target dev fuel retries w)) := by
  intro fuel
  induction fuel with
  | zero => intro retries w; exact Frame.refl w
  | succ fuel ih =>
    intro retries w
    rw [p2Loop]
    split
    rename_i r w' heq
    have hcall : Frame w w' := by
      have h := frame_unmountCall env w (joinPath target dev)
      rw [heq] at h
      exact h
    split
    · exact hcall
    split
    · exact hcall
    split
    · exact hcall.trans ((frame_sleepEv w' 2).trans (ih (retries + 1) _))
    split
    · exact hcall
    · exact hcall

theorem p2Outer_frame (env : Env) (target : String) (fuel : Nat) :
    ∀ (devs : List String) (w : World),
      Frame w (p2OutWorld (p2Outer env target fuel devs w)) := by
  intro devs
  induction devs with
  | nil => intro w; exact Frame.refl w
  | cons d ds ih =>
    intro w
    rw [p2Outer]
    have hloop := p2Loop_frame env target d fuel 0 w
    cases hres : p2Loop env target d fuel 0 w with
    | next w' =>
      rw [hres] at hloop
      exact Frame.trans hloop (ih w')
    | fail w' e => rw [hres] at hloop; exact hloop
    | fuelOut w' => rw [hres] at hloop; exact hloop

theorem unMount_frame (env : Env) (fuel : Nat) (devs : List String) (target : String)
    (w : World) :
    Frame w (outWorld (unMountChrootFileSystems env fuel devs target w).out) := by
  have h1 := p1Outer_frame env target fuel (reverseGo devs) [] w
  cases hres : p1Outer env target fuel (reverseGo devs) [] w with
  | next w' backlog =>
    rw [hres] at h1
    simp only [loopOutWorld] at h1
    have h2 := p2Outer_frame env target fuel backlog w'
    cases hres2 : p2Outer env target fuel backlog w' with
    | next w'' =>
      rw [hres2] at h2
      simp only [p2OutWorld] at h2
      simp only [unMountChrootFileSystems, hres, hres2, outWorld]
      exact Frame.trans h1 h2
    | fail w'' e =>
      rw [hres2] at h2
      simp only [p2OutWorld] at h2
      simp only [unMountChrootFileSystems, hres, hres2, outWorld]
      exact Frame.trans h1 h2
    | fuelOut w'' =>
      rw [hres2] at h2
      simp only [p2OutWorld] at h2
      simp only [unMountChrootFileSystems, hres, hres2, outWorld]
      exact Frame.trans h1 h2
  | fail w' e =>
    rw [hres] at h1
    simp only [loopOutWorld] at h1
    simp only [unMountChrootFileSystems, hres, outWorld]
    exact h1
  | fuelOut w' backlog =>
    rw [hres] at h1
    simp only [loopOutWorld] at h1
    simp only [unMountChrootFileSystems, hres, outWorld]
    exact h1

/-! ### Helper lemmas: runs whose unmount calls all succeed -/

theorem p1Loop_allOk_step (env : Env) (target dev : String) (fuel retries : Nat)
    (backlog : List String) (w : World) (hok : env.usched w.tick = .ok) :
    p1Loop env target dev (fuel + 1) retries backlog w =
      .next { ps := { w.ps with mounts := w.ps.mounts.erase (joinPath target dev) },
              tick := w.tick + 1,
              tr := w.tr ++ [.unmount (joinPath target dev)] } backlog := by
  rw [p1Loop]
  simp only [unmountCall, hok, reduceIte]

theorem p1Outer_cons_next (env : Env) (target : String) (fuel : Nat) (d : String)
    (ds backlog : List String) (w : World) (w' : World) (backlog' : List String)
    (h : p1Loop env target d fuel 0 backlog w = .next w' backlog') :
    p1Outer env target fuel (d :: ds) backlog w = p1Outer env target fuel ds backlog' w' := by
  rw [p1Outer, h]

theorem p1Outer_cons_fail (env : Env) (target : String) (fuel : Nat) (d : String)
    (ds backlog : List String) (w : World) (w' : World) (e : GoErr)
    (h : p1Loop env target d fuel 0 backlog w = .fail w' e) :
    p1Outer env target fuel (d :: ds) backlog w = .fail w' e := by
  rw [p1Outer, h]

theorem p2Outer_cons_next (env : Env) (target : String) (fuel : Nat) (d : String)
    (ds : List String) (w : World) (w' : World)
    (h : p2Loop env target d fuel 0 w = .next w') :
    p2Outer env target fuel (d :: ds) w = p2Outer env target fuel ds w' := by
  rw [p2Outer, h]

theorem p2Outer_cons_fail (env : Env) (target : String) (fuel : Nat) (d : String)
    (ds : List String) (w : World) (w' : World) (e : GoErr)
    (h : p2Loop env target d fuel 0 w = .fail w' e) :
    p2Outer env target fuel (d :: ds) w = .fail w' e := by
  rw [p2Outer, h]

theorem unMount_eq_next (env : Env) (fuel : Nat) (devs : List String) (target : String)
    (w : World) (w' : World) (backlog : List String)
    (h : p1Outer env target fuel (reverseGo devs) [] w = .next w' backlog) :
    unMountChrootFileSystems env fuel devs target w =
      (match p2Outer env target fuel backlog w' with
        | .next w'' => ⟨reverseGo devs, backlog, .ok w''⟩
        | .fail w'' e => ⟨reverseGo devs, backlog, .err w'' e⟩
        | .fuelOut w'' => ⟨reverseGo devs, backlog, .hang w''⟩) := by
  rw [unMountChrootFileSystems, h]

theorem unMount_eq_p1fail (env : Env) (fuel : Nat) (devs : List String) (target : String)
    (w : World) (w' : World) (e : GoErr)
    (h : p1Outer env target fuel (reverseGo devs) [] w = .fail w' e) :
    unMountChrootFileSystems env fuel devs target w = ⟨reverseGo devs, [], .err w' e⟩ := by
  rw [unMountChrootFileSystems, h]

theorem p1Outer_allOk (env : Env) (target : String) (fuel : Nat)
    (hok : ∀ n, env.usched n = .ok) :
    ∀ (devs backlog : List String) (w : World),
      p1Outer env target (fuel + 1) devs backlog w =
        .next { ps := { w.ps with
                  mounts := devs.foldl (fun m d => m.erase (joinPath target d)) w.ps.mounts },
                tick := w.tick + devs.length,
                tr := w.tr ++ devs.map (fun d => .unmount (joinPath target d)) } backlog := by
  intro devs
  induction devs with
  | nil =>
    intro backlog w
    simp [p1Outer]
  | cons d ds ih =>
    intro backlog w
    rw [p1Outer_cons_next env target (fuel + 1) d ds backlog w _ _
      (p1Loop_allOk_step env target d fuel 0 backlog w (hok w.tick)), ih]
    simp only [LoopOut.next.injEq, World.mk.injEq, PState.mk.injEq, List.foldl_cons,
      List.map_cons, List.length_cons, List.append_assoc, List.singleton_append, and_true,
      true_and]
    omega

theorem unMount_allOk (env : Env) (target : String) (fuel : Nat)
    (hok : ∀ n, env.usched n = .ok) (devs : List String) (w : World) :
    unMountChrootFileSystems env (fuel + 1) devs target w =
      ⟨reverseGo devs, [],
        .ok { ps := { w.ps with
                mounts := (reverseGo devs).foldl (fun m d => m.erase (joinPath target d))
                  w.ps.mounts },
              tick := w.tick + (reverseGo devs).length,
              tr := w.tr ++ (reverseGo devs).map (fun d => .unmount (joinPath target d)) }⟩ := by
  rw [unMountChrootFileSystems]
  rw [p1Outer_allOk env target fuel hok (reverseGo devs) [] w]
  simp [p2Outer]

/-- Erasing, in reverse order, every element of a duplicate-free block
appended to a list it is disjoint from restores the original list. -/
theorem foldl_erase_append (l m0 : List String) (hn : l.Nodup)
    (hdisj : ∀ p ∈ l, p ∉ m0) :
    l.reverse.foldl (fun m p => m.erase p) (m0 ++ l) = m0 := by
  induction l using List.reverseRecOn generalizing m0 with
  | nil => simp
  | append_singleton l' a ih =>
    rw [List.reverse_append, List.reverse_singleton, List.singleton_append, List.foldl_cons]
    have ha_nl' : a ∉ l' := by
      have := List.nodup_append.mp hn
      intro hmem
      exact this.2.2 hmem (by simp)
    have ha_nm0 : a ∉ m0 := hdisj a (by simp)
    have herase : (m0 ++ (l' ++ [a])).erase a = m0 ++ l' := by
      rw [← List.append_assoc, List.erase_append_right _ (by
        intro hmem
        rcases List.mem_append.mp hmem with h | h
        · exact ha_nm0 h
        · exact ha_nl' h)]
      simp [List.erase_cons_head]
    rw [herase]
    exact ih m0 (List.nodup_append.mp hn).1
      (fun p hp => hdisj p (List.mem_append.mpr (Or.inl hp)))

theorem joinPath_injective (target : String) :
    Function.Injective (joinPath target) := by
  intro a b h
  have hdata : (target ++ a).data = (target ++ b).data := congrArg String.data h
  rw [String.data_append, String.data_append] at hdata
  have := List.append_cancel_left hdata
  cases a; cases b
  exact congrArg String.mk this

theorem canonical_joins_nodup (target : String) :
    (canonicalDevices.map (joinPath target)).Nodup := by
  refine List.Nodup.map (joinPath_injective target) ?_
  decide

/-! ### Helper lemmas: the bind phase -/

theorem mountLoop_allOk (env : Env) (target : String) :
    ∀ (devs acc : List String) (w : World),
      (∀ d ∈ devs, devBindOk env target d = true) →
      mountLoop env target devs acc w =
        (acc ++ devs, none,
          { w with ps := { w.ps with
              mounts := w.ps.mounts ++ devs.map (joinPath target) } }) := by
  intro devs
  induction devs with
  | nil => intro acc w _; simp [mountLoop]
  | cons d ds ih =>
    intro acc w hall
    have hd := hall d (by simp)
    rw [devBindOk] at hd
    simp only [Bool.and_eq_true, Bool.or_eq_true, Bool.not_eq_true'] at hd
    have h1 : (env.notExist (joinPath target d) &&
        !env.mkdirOk (joinPath target d) (fileModeFor d)) = false := by
      rcases hd.1 with h | h <;> simp [h]
    have h2 : (!env.mountOk (joinPath target d)) = false := by simp [hd.2]
    rw [mountLoop]
    simp only [h1, h2, Bool.false_eq_true, reduceIte]
    rw [ih (acc ++ [d]) _ (fun x hx => hall x (by simp [hx]))]
    simp [List.append_assoc]

theorem mountLoop_fail (env : Env) (target : String) :
    ∀ (pre : List String) (d : String) (post acc : List String) (w : World),
      (∀ p ∈ pre, devBindOk env target p = true) →
      devBindOk env target d = false →
      mountLoop env target (pre ++ d :: post) acc w =
        (acc ++ pre, devBindErr env target d,
          { w with ps := { w.ps with
              mounts := w.ps.mounts ++ pre.map (joinPath target) } }) := by
  intro pre
  induction pre with
  | nil =>
    intro d post acc w _ hd
    rw [devBindOk] at hd
    rw [List.nil_append, mountLoop, devBindErr]
    by_cases hne : (env.notExist (joinPath target d) &&
        !env.mkdirOk (joinPath target d) (fileModeFor d)) = true
    · simp [hne]
    · have hmt : (!env.mountOk (joinPath target d)) = true := by
        cases h1 : env.notExist (joinPath target d) <;>
          cases h2 : env.mkdirOk (joinPath target d) (fileModeFor d) <;>
            cases h3 : env.mountOk (joinPath target d) <;> simp_all
      simp [hne, hmt]
  | cons p ps ih =>
    intro d post acc w hpre hd
    have hp := hpre p (by simp)
    rw [devBindOk] at hp
    simp only [Bool.and_eq_true, Bool.or_eq_true, Bool.not_eq_true'] at hp
    have h1 : (env.notExist (joinPath target p) &&
        !env.mkdirOk (joinPath target p) (fileModeFor p)) = false := by
      rcases hp.1 with h | h <;> simp [h]
    have h2 : (!env.mountOk (joinPath target p)) = false := by simp [hp.2]
    rw [List.cons_append, mountLoop]
    simp only [h1, h2, Bool.false_eq_true, reduceIte]
    rw [ih d post (acc ++ [p]) _ (fun x hx => hpre x (by simp [hx])) hd]
    simp [List.append_assoc]

theorem devBindErr_isSome (env : Env) (target d : String)
    (h : devBindOk env target d = false) : (devBindErr env target d).isSome = true := by
  rw [devBindOk] at h
  rw [devBindErr]
  cases h1 : env.notExist (joinPath target d) <;>
    cases h2 : env.mkdirOk (joinPath target d) (fileModeFor d) <;>
      cases h3 : env.mountOk (joinPath target d) <;> simp_all

/-! ### Helper lemmas: the field locator -/

theorem goIndex_eq_some (fields : List String) (i : Int) (h0 : 0 ≤ i)
    (hlt : i.toNat < fields.length) :
    goIndex fields i = some (fields.getD i.toNat "") := by
  rw [goIndex, dif_pos ⟨h0, hlt⟩]
  simp [List.getD_eq_getElem?_getD, List.getElem?_eq_getElem hlt, List.get_eq_getElem]

theorem goIndex_eq_none (fields : List String) (i : Int)
    (h : i < 0 ∨ (fields.length : Int) ≤ i) :
    goIndex fields i = none := by
  rw [goIndex, dif_neg]
  rintro ⟨h0, hlt⟩
  rcases h with h | h
  · omega
  · omega

theorem lineHit_elim {split : String → List String} {mi : Int} {matchp : String → Bool}
    {line : String} (h : lineHit split mi matchp line = true) :
    ¬ ((split line).length : Int) ≤ mi ∧
      ∃ f, goIndex (split line) mi = some f ∧ matchp f = true := by
  simp only [lineHit] at h
  by_cases hg : ((split line).length : Int) ≤ mi
  · rw [if_pos hg] at h
    exact absurd h (by simp)
  · rw [if_neg hg] at h
    refine ⟨hg, ?_⟩
    cases hgi : goIndex (split line) mi with
    | none => rw [hgi] at h; exact absurd h (by simp)
    | some f => rw [hgi] at h; exact ⟨f, rfl, h⟩

theorem locateFieldLoop_skip (split : String → List String) (mi ri : Int)
    (matchp : String → Bool) (line : String) (rest : List String)
    (h : lineHit split mi matchp line = false) (h0 : 0 ≤ mi) :
    locateFieldLoop split mi ri matchp (line :: rest) =
      locateFieldLoop split mi ri matchp rest := by
  simp only [locateFieldLoop]
  by_cases hg : ((split line).length : Int) ≤ mi
  · rw [if_pos hg]
  · rw [if_neg hg]
    have hlt : mi.toNat < (split line).length := by omega
    rw [goIndex_eq_some (split line) mi h0 hlt]
    simp only [lineHit, if_neg hg, goIndex_eq_some (split line) mi h0 hlt] at h
    rw [List.getD_eq_getElem?_getD] at h
    simp [h]

theorem locateFieldLoop_hit (split : String → List String) (mi ri : Int)
    (matchp : String → Bool) (line : String) (rest : List String)
    (hhit : lineHit split mi matchp line = true) :
    locateFieldLoop split mi ri matchp (line :: rest) =
      (match goIndex (split line) ri with
        | none => .panicked
        | some r => .ok r) := by
  obtain ⟨hg, f, hf, hmp⟩ := lineHit_elim hhit
  simp only [locateFieldLoop]
  rw [if_neg hg, hf]
  simp [hmp]

theorem locateFieldLoop_ne_ioError (split : String → List String) (mi ri : Int)
    (matchp : String → Bool) :
    ∀ lines, locateFieldLoop split mi ri matchp lines ≠ .ioError := by
  intro lines
  induction lines with
  | nil => simp [locateFieldLoop]
  | cons line rest ih =>
    simp only [locateFieldLoop]
    by_cases hg : ((split line).length : Int) ≤ mi
    · rw [if_pos hg]; exact ih
    · rw [if_neg hg]
      cases hgi : goIndex (split line) mi with
      | none => simp
      | some f =>
        by_cases hmp : matchp f = true
        · simp only [hmp, reduceIte]
          cases goIndex (split line) ri <;> simp
        · simp only [Bool.not_eq_true] at hmp
          simp only [hmp, Bool.false_eq_true, reduceIte]
          exact ih

/-! ### Claim C8 -/

/-- C8: `locateField` returns the field at `returnIndex` of the first line
whose field at `matchIndex` satisfies the match pattern; when no line
matches it returns the empty string with a nil error.  In particular, on
the passwd example, match index 2, return index 0, pattern `^1224$` yields
`"bob"`, and a pattern matching no line yields `""`. -/
theorem locateField_first_match :
    (∀ (split : String → List String) (mi ri : Int) (matchp : String → Bool)
        (pre post : List String) (L : String),
      0 ≤ mi →
      (∀ l ∈ pre, lineHit split mi matchp l = false) →
      lineHit split mi matchp L = true →
      0 ≤ ri → ri.toNat < (split L).length →
      locateField (some (pre ++ L :: post)) split mi ri matchp =
        .ok ((split L).getD ri.toNat "")) ∧
    (∀ (split : String → List String) (mi ri : Int) (matchp : String → Bool)
        (lines : List String),
      0 ≤ mi →
      (∀ l ∈ lines, lineHit split mi matchp l = false) →
      locateField (some lines) split mi ri matchp = .ok "") ∧
    locateField (some passwdLines) colonSplit 2 0 (fun f => f == "1224") = .ok "bob" ∧
    locateField (some passwdLines) colonSplit 2 0 (fun f => f == "9999") = .ok "" := by
  refine ⟨?_, ?_, by decide, by decide⟩
  · intro split mi ri matchp pre post L hmi hpre hhit hri hbound
    rw [locateField]
    induction pre with
    | nil =>
      rw [List.nil_append, locateFieldLoop_hit split mi ri matchp L post hhit,
        goIndex_eq_some (split L) ri hri hbound]
    | cons p ps ih =>
      rw [List.cons_append,
        locateFieldLoop_skip split mi ri matchp p (ps ++ L :: post)
          (hpre p (by simp)) hmi]
      exact ih (fun l hl => hpre l (by simp [hl]))
  · intro split mi ri matchp lines hmi hall
    rw [locateField]
    induction lines with
    | nil => rw [locateFieldLoop]
    | cons line rest ih =>
      rw [locateFieldLoop_skip split mi ri matchp line rest (hall line (by simp)) hmi]
      exact ih (fun l hl => hall l (by simp [hl]))

/-- Witness for C8: the first general conjunct applied to the passwd
example (first matching line `bob:…`, return field 0). -/
theorem locateField_first_match_witness :
    locateField (some (["alice:x:1000:1000:Alice:/home/alice:/bin/bash"] ++
        "bob:x:1224:1224:Bob:/home/bob:/bin/bash" :: [])) colonSplit 2 0
        (fun f => f == "1224") =
      .ok ((colonSplit "bob:x:1224:1224:Bob:/home/bob:/bin/bash").getD (0 : Int).toNat "") :=
  locateField_first_match.1 colonSplit 2 0 (fun f => f == "1224")
    ["alice:x:1000:1000:Alice:/home/alice:/bin/bash"] []
    "bob:x:1224:1224:Bob:/home/bob:/bin/bash"
    (by decide) (by decide) (by decide) (by decide) (by decide)

/-! ### Claim C9 -/

/-- C9 counterexample: the claim says `locateField` never aborts on a line
with fewer fields than `returnIndex` requires, but on the file `["a:b"]`
with match index 0, return index 5 and a pattern matching `"a"`, the
matching line has 2 fields and the source executes `fields[5]`, an
index-out-of-range panic. -/
theorem locateField_short_return_cex :
    locateField (some ["a:b"]) colonSplit 0 5 (fun f => f == "a") = .panicked := by
  decide

/-- C9 amended: an error value is returned only on I/O failure and a line
with fewer fields than `matchIndex` requires is skipped, but the function
is not total: when the first line whose match field satisfies the pattern
has `returnIndex` outside its field range (or `returnIndex` is negative),
`locateField` panics with an index-out-of-range error instead of
returning. -/
theorem locateField_amended_safety :
    (∀ (split : String → List String) (mi ri : Int) (matchp : String → Bool)
        (line : String) (rest : List String),
      ((split line).length : Int) ≤ mi →
      locateFieldLoop split mi ri matchp (line :: rest) =
        locateFieldLoop split mi ri matchp rest) ∧
    (∀ (split : String → List String) (mi ri : Int) (matchp : String → Bool)
        (lines : List String),
      locateField (some lines) split mi ri matchp ≠ .ioError) ∧
    (∀ (split : String → List String) (mi ri : Int) (matchp : String → Bool)
        (pre post : List String) (L : String),
      0 ≤ mi →
      (∀ l ∈ pre, lineHit split mi matchp l = false) →
      lineHit split mi matchp L = true →
      (ri < 0 ∨ ((split L).length : Int) ≤ ri) →
      locateField (some (pre ++ L :: post)) split mi ri matchp = .panicked) := by
  refine ⟨?_, ?_, ?_⟩
  · intro split mi ri matchp line rest hg
    simp only [locateFieldLoop]
    rw [if_pos hg]
  · intro split mi ri matchp lines
    rw [locateField]
    exact locateFieldLoop_ne_ioError split mi ri matchp lines
  · intro split mi ri matchp pre post L hmi hpre hhit hout
    rw [locateField]
    induction pre with
    | nil =>
      rw [List.nil_append, locateFieldLoop_hit split mi ri matchp L post hhit,
        goIndex_eq_none (split L) ri hout]
    | cons p ps ih =>
      rw [List.cons_append,
        locateFieldLoop_skip split mi ri matchp p (ps ++ L :: post)
          (hpre p (by simp)) hmi]
      exact ih (fun l hl => hpre l (by simp [hl]))

/-- Witness for C9's amended theorem: the panic case applied to the
counterexample input. -/
theorem locateField_amended_safety_witness :
    locateField (some ([] ++ "a:b" :: [])) colonSplit 0 5 (fun f => f == "a") =
      .panicked :=
  locateField_amended_safety.2.2 colonSplit 0 5 (fun f => f == "a") [] [] "a:b"
    (by decide) (by decide) (by decide) (by decide)

/-! ### Claim C10 -/

/-- C10: `unMountChrootFileSystems` reverses its `devicesToMount` argument
slice in place: after every call — whatever the unmount results, the error
outcome or the fuel — the caller's slice holds the devices in the reverse
of the order passed in, and nothing later in the function writes to the
slice again, so the original order is never restored. -/
theorem unMount_reverses_caller_slice (env : Env) (fuel : Nat) (devs : List String)
    (target : String) (w : World) :
    (unMountChrootFileSystems env fuel devs target w).finalDevs = devs.reverse := by
  have hrev := reverseGo_eq devs
  rw [unMountChrootFileSystems]
  cases hres : p1Outer env target fuel (reverseGo devs) [] w with
  | next w' backlog =>
    cases hres2 : p2Outer env target fuel backlog w' <;> simp [hres2, hrev]
  | fail w' e => simp [hrev]
  | fuelOut w' backlog => simp [hrev]

/-! ### Claim C5 -/

/-- Environment for the C5 backlog scenario: each of the three devices is
busy twice and unmounts on its third phase-1 attempt (landing in the
backlog once), and every phase-2 attempt succeeds. -/
def envC5 : Env :=
  mkEnv (schedOf [.ebusy, .ebusy, .ok, .ebusy, .ebusy, .ok, .ebusy, .ebusy, .ok])

/-- Starting world for the C5 scenario. -/
def wC5 : World :=
  { ps := { root := 0, cwd := 1, mounts := ["/t/a", "/t/b", "/t/c"], openRefs := 0 },
    tick := 0, tr := [] }

/-- C5: unmount attempts happen in exactly the reverse of mount order.
First conjunct: for any device list, when every unmount succeeds at once,
the attempt trace is the reversed device list.  Second conjunct: for
devices mounted in order `[/a, /b, /c]`, first attempts occur on `/c`,
`/b`, `/a` in that order, the phase-2 backlog is `[/c, /b, /a]`, and its
devices are retried in that same reversed order (the last three unmount
events of the trace). -/
theorem unMount_reverse_order :
    (∀ (env : Env) (fuel : Nat) (devs : List String) (target : String) (w : World),
      (∀ n, env.usched n = .ok) → 1 ≤ fuel →
      ∃ w', (unMountChrootFileSystems env fuel devs target w).out = .ok w' ∧
        w'.tr = w.tr ++ devs.reverse.map (fun d => Ev.unmount (joinPath target d))) ∧
    unMountChrootFileSystems envC5 10 ["/a", "/b", "/c"] "/t" wC5 =
      ⟨["/c", "/b", "/a"], ["/c", "/b", "/a"],
        .ok { ps := { root := 0, cwd := 1, mounts := [], openRefs := 0 },
              tick := 12,
              tr := [.unmount "/t/c", .sleep 1, .unmount "/t/c", .unmount "/t/c",
                     .unmount "/t/b", .sleep 1, .unmount "/t/b", .unmount "/t/b",
                     .unmount "/t/a", .sleep 1, .unmount "/t/a", .unmount "/t/a",
                     .unmount "/t/c", .unmount "/t/b", .unmount "/t/a"] }⟩ := by
  constructor
  · intro env fuel devs target w hok hfuel
    obtain ⟨f, rfl⟩ : ∃ f, fuel = f + 1 := ⟨fuel - 1, by omega⟩
    rw [unMount_allOk env target f hok devs w]
    exact ⟨_, rfl, by rw [reverseGo_eq]⟩
  · simp only [unMountChrootFileSystems, reverseGo_eq]
    decide

/-- Witness for C5: the all-ok conjunct applied to two devices, giving the
reversed attempt order `[/proc, /sys]`. -/
theorem unMount_reverse_order_witness :
    ∃ w', (unMountChrootFileSystems (mkEnv (fun _ => .ok)) 1 ["/sys", "/proc"] "/t"
        wBase).out = .ok w' ∧
      w'.tr = wBase.tr ++ (["/sys", "/proc"].reverse.map
        (fun d => Ev.unmount (joinPath "/t" d))) :=
  unMount_reverse_order.1 (mkEnv (fun _ => .ok)) 1 ["/sys", "/proc"] "/t" wBase
    (fun _ => rfl) (by decide)

/-! ### Claim C1 -/

/-- Environment for the C1 failing input: the device is busy on its first
two unmount attempts and unmounts on the third. -/
def envC1 : Env := mkEnv (schedOf [.ebusy, .ebusy, .ok])

/-- Environment in which every unmount attempt reports busy. -/
def envBusy : Env := mkEnv (fun _ => .ebusy)

theorem p1Loop_busy_step (env : Env) (target dev : String) (fuel retries : Nat)
    (backlog : List String) (w : World) (hbusy : env.usched w.tick = .ebusy) :
    p1Loop env target dev (fuel + 1) retries backlog w =
      (if retries = 1 then
        p1Loop env target dev fuel retries (backlog ++ [dev])
          { ps := w.ps, tick := w.tick + 1, tr := w.tr ++ [.unmount (joinPath target dev)] }
      else
        p1Loop env target dev fuel (retries + 1) backlog
          { ps := w.ps, tick := w.tick + 1,
            tr := w.tr ++ [.unmount (joinPath target dev), .sleep 1] }) := by
  rw [p1Loop]
  simp only [unmountCall, hbusy, reduceIte]
  by_cases hr : retries = 1
  · simp [hr]
  · simp [hr, sleepEv, List.append_assoc]

/-- C1 (code bug): the phase-1 claim fails on the code because the
`retries == 1` branch has no `break`.  First conjunct: on the failing input
(one device, unmount results busy, busy, ok) phase 1 makes a *third* inline
attempt on the device — the trace holds three unmount events — after
appending it to the backlog.  Second conjunct: if the device stays busy,
the phase-1 loop never terminates (it exhausts any amount of fuel),
appending the device to the backlog again on every iteration. -/
theorem unMount_phase1_missing_break :
    (p1Loop envC1 "/t" "/dev" 10 0 [] wBase =
      .next { ps := { root := 7, cwd := 11, mounts := [], openRefs := 0 },
              tick := 3,
              tr := [.unmount "/t/dev", .sleep 1, .unmount "/t/dev", .unmount "/t/dev"] }
        ["/dev"]) ∧
    (∀ (fuel retries : Nat) (backlog : List String) (w : World),
      ∃ w' b, p1Loop envBusy "/t" "/dev" fuel retries backlog w = .fuelOut w' b) := by
  constructor
  · decide
  · intro fuel
    induction fuel with
    | zero => intro retries backlog w; exact ⟨w, backlog, rfl⟩
    | succ f ih =>
      intro retries backlog w
      rw [p1Loop_busy_step envBusy "/t" "/dev" f retries backlog w rfl]
      by_cases hr : retries = 1
      · rw [if_pos hr]
        exact ih retries (backlog ++ ["/dev"]) _
      · rw [if_neg hr]
        exact ih (retries + 1) backlog _

/-! ### Claim C7 -/

/-- Environment for the C7 counterexample: phase 1 backlogs the device
(busy, busy, then unmounted on the third attempt), and in phase 2 the
device is busy once and then unmounts. -/
def envC7 : Env := mkEnv (schedOf [.ebusy, .ebusy, .ok, .ebusy, .ok])

/-- C7 counterexample: `/dev` is backlogged (`backlog = ["/dev"]`), and its
first phase-2 attempt fails busy — a reason other than not-a-mount-point
(the trace shows the fourth unmount event followed by the 2-second sleep) —
yet the operation returns nil (`ok`) rather than an error naming `/dev`:
the code retries once more after the longer delay instead of failing. -/
theorem unMount_backlog_policy_cex :
    unMountChrootFileSystems envC7 10 ["/dev"] "/t" wBase =
      ⟨["/dev"], ["/dev"],
        .ok { ps := { root := 7, cwd := 11, mounts := [], openRefs := 0 },
              tick := 5,
              tr := [.unmount "/t/dev", .sleep 1, .unmount "/t/dev", .unmount "/t/dev",
                     .unmount "/t/dev", .sleep 2, .unmount "/t/dev"] }⟩ := by
  simp only [unMountChrootFileSystems, reverseGo_eq]
  decide

/-- C7 amended: in phase 2 each backlogged device is attempted again with
no preceding delay; if that attempt reports busy the code sleeps the longer
delay and retries once, and if the second attempt fails for *any* reason
(not-a-mount-point included) the operation returns an error naming the
device, with no further retries; if the first phase-2 attempt fails for a
reason other than busy or not-a-mount-point the operation returns that raw
error, which does not name the device; a first-attempt not-a-mount-point is
skipped benignly. -/
theorem p2Loop_amended_policy (env : Env) (target dev : String) (fuel : Nat) (w : World) :
    (env.usched w.tick = .eother →
      p2Loop env target dev (fuel + 1) 0 w =
        .fail (unmountCall env w (joinPath target dev)).2 (.errno .eother)) ∧
    (env.usched w.tick = .einval →
      p2Loop env target dev (fuel + 1) 0 w =
        .next (unmountCall env w (joinPath target dev)).2) ∧
    (env.usched w.tick = .ebusy →
      env.usched (w.tick + 1) = .ok →
      p2Loop env target dev (fuel + 2) 0 w =
        .next (unmountCall env
          (sleepEv (unmountCall env w (joinPath target dev)).2 2)
          (joinPath target dev)).2) ∧
    (env.usched w.tick = .ebusy →
      env.usched (w.tick + 1) ≠ .ok →
      p2Loop env target dev (fuel + 2) 0 w =
        .fail (unmountCall env
          (sleepEv (unmountCall env w (joinPath target dev)).2 2)
          (joinPath target dev)).2 (.unmountNamed dev)) := by
  refine ⟨?_, ?_, ?_, ?_⟩
  · intro h
    rw [p2Loop]
    simp [unmountCall, h]
  · intro h
    rw [p2Loop]
    simp [unmountCall, h]
  · intro h1 h2
    rw [p2Loop]
    simp only [unmountCall, h1]
    rw [p2Loop]
    simp [unmountCall, sleepEv, h1, h2]
  · intro h1 h2
    rw [p2Loop]
    simp only [unmountCall, h1]
    rw [p2Loop]
    cases hr2 : env.usched (w.tick + 1) with
    | ok => exact absurd hr2 h2
    | ebusy => simp [unmountCall, sleepEv, h1, hr2]
    | einval => simp [unmountCall, sleepEv, h1, hr2]
    | eother => simp [unmountCall, sleepEv, h1, hr2]

/-- Witness for C7's amended theorem: the busy-then-busy case on a concrete
environment returns the error naming the device. -/
theorem p2Loop_amended_policy_witness :
    p2Loop (mkEnv (schedOf [.ebusy, .ebusy])) "/t" "/dev" 5 0 wBase =
      .fail (unmountCall (mkEnv (schedOf [.ebusy, .ebusy]))
        (sleepEv (unmountCall (mkEnv (schedOf [.ebusy, .ebusy])) wBase
          (joinPath "/t" "/dev")).2 2)
        (joinPath "/t" "/dev")).2 (.unmountNamed "/dev") :=
  (p2Loop_amended_policy (mkEnv (schedOf [.ebusy, .ebusy])) "/t" "/dev" 3 wBase).2.2.2
    (by decide) (by decide)

/-! ### Claim C4 -/

/-- C4: if binding the k-th device fails (its mount-point mkdir or its bind
mount), `mountChrootFileSystems` stops immediately and returns exactly the
devices before it as the bound list together with the error; on success the
bound list equals the input device sequence. -/
theorem mountChrootFileSystems_partial_bind (env : Env) (target : String) (w : World) :
    (∀ devs : List String,
      (∀ d ∈ devs, devBindOk env target d = true) →
      mountChrootFileSystems env devs target w =
        (devs, none,
          { w with ps := { w.ps with
              mounts := w.ps.mounts ++ devs.map (joinPath target) } })) ∧
    (∀ (pre : List String) (d : String) (post : List String),
      (∀ p ∈ pre, devBindOk env target p = true) →
      devBindOk env target d = false →
      mountChrootFileSystems env (pre ++ d :: post) target w =
        (pre, devBindErr env target d,
          { w with ps := { w.ps with
              mounts := w.ps.mounts ++ pre.map (joinPath target) } }) ∧
      (devBindErr env target d).isSome = true) := by
  constructor
  · intro devs h
    rw [mountChrootFileSystems, mountLoop_allOk env target devs [] w h]
    simp
  · intro pre d post hpre hd
    refine ⟨?_, devBindErr_isSome env target d hd⟩
    rw [mountChrootFileSystems, mountLoop_fail env target pre d post [] w hpre hd]
    simp

/-- Environment for the C4 witness: everything succeeds except the bind
mount of `/t/proc`. -/
def envC4 : Env := { mkEnv (fun _ => .ok) with mountOk := fun p => !(p == "/t/proc") }

/-- Witness for C4: with `/proc` failing as second device, the bound list
is exactly `["/sys"]` and the mount error is reported. -/
theorem mountChrootFileSystems_partial_bind_witness :
    mountChrootFileSystems envC4 (["/sys"] ++ "/proc" :: ["/dev", "/dev/pts"]) "/t" wBase =
      (["/sys"], devBindErr envC4 "/t" "/proc",
        { wBase with ps := { wBase.ps with
            mounts := wBase.ps.mounts ++ ["/sys"].map (joinPath "/t") } }) ∧
    (devBindErr envC4 "/t" "/proc").isSome = true :=
  (mountChrootFileSystems_partial_bind envC4 "/t" wBase).2 ["/sys"] "/proc"
    ["/dev", "/dev/pts"] (by decide) (by decide)

/-! ### Helper lemmas: the entry unwind -/

theorem chrootUnwind_allOk (env : Env) (f : Nat) (target : String)
    (bnd : List String) (errs : List GoErr) (w2 : World) (m0 : List String)
    (hok : ∀ n, env.usched n = .ok)
    (hmounts : w2.ps.mounts = m0 ++ bnd.map (joinPath target))
    (hnodup : (bnd.map (joinPath target)).Nodup)
    (hdisj : ∀ p ∈ bnd.map (joinPath target), p ∉ m0) :
    ∃ w', chrootUnwind env (f + 1) bnd target errs w2 = .ret none errs w' ∧
      w'.ps.mounts = m0 ∧ w'.ps.openRefs = w2.ps.openRefs - 1 ∧
      w'.ps.root = w2.ps.root ∧ w'.ps.cwd = w2.ps.cwd := by
  rw [chrootUnwind]
  rw [unMount_allOk env target f hok bnd
    { w2 with ps := { w2.ps with openRefs := w2.ps.openRefs - 1 } }]
  refine ⟨_, rfl, ?_, rfl, rfl, rfl⟩
  show (reverseGo bnd).foldl (fun m d => m.erase (joinPath target d)) w2.ps.mounts = m0
  rw [hmounts, reverseGo_eq]
  rw [(List.foldl_map (joinPath target) (fun m p => m.erase p) bnd.reverse
    (m0 ++ bnd.map (joinPath target))).symm]
  rw [List.map_reverse]
  exact foldl_erase_append (bnd.map (joinPath target)) m0 hnodup hdisj

/-! ### Claim C3 -/

/-- C3: if entry fails after some mounts were bound — a later bind mount
fails, or the chroot or the chdir root-swap step fails — `Chroot` unmounts
every device it had bound, releases the captured root reference, and
returns exactly the original error: the mount table and the open-reference
count end as they started.  (Unmount attempts of the unwind are assumed to
succeed; the claim is about what the unwind does, not about a doubly
failing teardown.) -/
theorem chroot_failed_entry_unwind (env : Env) (fuel : Nat) (target : String)
    (tino : Nat) (w : World)
    (hg : env.getwdOk = true) (ho : env.openRootOk = true)
    (hok : ∀ n, env.usched n = .ok) (hfuel : 1 ≤ fuel)
    (hm0 : ∀ d ∈ canonicalDevices, joinPath target d ∉ w.ps.mounts) :
    (∀ (pre : List String) (d : String) (post : List String) (e : GoErr),
      canonicalDevices = pre ++ d :: post →
      (∀ p ∈ pre, devBindOk env target p = true) →
      devBindOk env target d = false →
      devBindErr env target d = some e →
      ∃ w', Chroot env fuel target tino w = .ret none [e] w' ∧
        w'.ps.mounts = w.ps.mounts ∧ w'.ps.openRefs = w.ps.openRefs) ∧
    ((∀ d ∈ canonicalDevices, devBindOk env target d = true) →
      env.chrootOk = false →
      ∃ w', Chroot env fuel target tino w = .ret none [.chrootErr] w' ∧
        w'.ps.mounts = w.ps.mounts ∧ w'.ps.openRefs = w.ps.openRefs) ∧
    ((∀ d ∈ canonicalDevices, devBindOk env target d = true) →
      env.chrootOk = true → env.chdirRootOk = false →
      ∃ w', Chroot env fuel target tino w = .ret none [.chdirErr] w' ∧
        w'.ps.mounts = w.ps.mounts ∧ w'.ps.openRefs = w.ps.openRefs) := by
  obtain ⟨f, rfl⟩ : ∃ f, fuel = f + 1 := ⟨fuel - 1, by omega⟩
  have hcanodup := canonical_joins_nodup target
  refine ⟨?_, ?_, ?_⟩
  · intro pre d post e hsplit hpre hfail herr
    have hmount : mountChrootFileSystems env canonicalDevices target
        { w with ps := { w.ps with openRefs := w.ps.openRefs + 1 } } =
          (pre, some e,
            { w with ps := { w.ps with
                               openRefs := w.ps.openRefs + 1,
                               mounts := w.ps.mounts ++ pre.map (joinPath target) } }) := by
      rw [hsplit, mountChrootFileSystems,
        mountLoop_fail env target pre d post []
          { w with ps := { w.ps with openRefs := w.ps.openRefs + 1 } } hpre hfail, herr]
      simp
    have hnodup : (pre.map (joinPath target)).Nodup := by
      rw [hsplit, List.map_append] at hcanodup
      exact (List.nodup_append.mp hcanodup).1
    have hdisj : ∀ p ∈ pre.map (joinPath target), p ∉ w.ps.mounts := by
      intro p hp
      obtain ⟨x, hx, rfl⟩ := List.mem_map.mp hp
      exact hm0 x (by rw [hsplit]; exact List.mem_append_left _ hx)
    obtain ⟨w', hw', hmounts', hrefs', _, _⟩ :=
      chrootUnwind_allOk env f target pre [e]
        { w with ps := { w.ps with
                           openRefs := w.ps.openRefs + 1,
                           mounts := w.ps.mounts ++ pre.map (joinPath target) } }
        w.ps.mounts hok rfl hnodup hdisj
    refine ⟨w', ?_, hmounts', ?_⟩
    · simp only [Chroot, hg, ho]
      rw [if_neg (by decide), if_neg (by decide), hmount]
      exact hw'
    · rw [hrefs']
      simp
  · intro hbindok hchroot
    have hmount : mountChrootFileSystems env canonicalDevices target
        { w with ps := { w.ps with openRefs := w.ps.openRefs + 1 } } =
          (canonicalDevices, none,
            { w with ps := { w.ps with
                               openRefs := w.ps.openRefs + 1,
                               mounts := w.ps.mounts ++
                                 canonicalDevices.map (joinPath target) } }) := by
      rw [mountChrootFileSystems,
        mountLoop_allOk env target canonicalDevices []
          { w with ps := { w.ps with openRefs := w.ps.openRefs + 1 } } hbindok]
      simp
    have hdisj : ∀ p ∈ canonicalDevices.map (joinPath target), p ∉ w.ps.mounts := by
      intro p hp
      obtain ⟨x, hx, rfl⟩ := List.mem_map.mp hp
      exact hm0 x hx
    obtain ⟨w', hw', hmounts', hrefs', _, _⟩ :=
      chrootUnwind_allOk env f target canonicalDevices [.chrootErr]
        { w with ps := { w.ps with
                           openRefs := w.ps.openRefs + 1,
                           mounts := w.ps.mounts ++
                             canonicalDevices.map (joinPath target) } }
        w.ps.mounts hok rfl hcanodup hdisj
    refine ⟨w', ?_, hmounts', ?_⟩
    · simp only [Chroot, hg, ho]
      rw [if_neg (by decide), if_neg (by decide), hmount]
      simp only [hchroot, reduceIte]
      exact hw'
    · rw [hrefs']
      simp
  · intro hbindok hchroot hchdir
    have hmount : mountChrootFileSystems env canonicalDevices target
        { w with ps := { w.ps with openRefs := w.ps.openRefs + 1 } } =
          (canonicalDevices, none,
            { w with ps := { w.ps with
                               openRefs := w.ps.openRefs + 1,
                               mounts := w.ps.mounts ++
                                 canonicalDevices.map (joinPath target) } }) := by
      rw [mountChrootFileSystems,
        mountLoop_allOk env target canonicalDevices []
          { w with ps := { w.ps with openRefs := w.ps.openRefs + 1 } } hbindok]
      simp
    have hdisj : ∀ p ∈ canonicalDevices.map (joinPath target), p ∉ w.ps.mounts := by
      intro p hp
      obtain ⟨x, hx, rfl⟩ := List.mem_map.mp hp
      exact hm0 x hx
    obtain ⟨w', hw', hmounts', hrefs', _, _⟩ :=
      chrootUnwind_allOk env f target canonicalDevices [.chdirErr]
        { ps := { root := tino, cwd := w.ps.cwd,
                  mounts := w.ps.mounts ++ canonicalDevices.map (joinPath target),
                  openRefs := w.ps.openRefs + 1 },
          tick := w.tick, tr := w.tr ++ [.chroot target] }
        w.ps.mounts hok rfl hcanodup hdisj
    refine ⟨w', ?_, hmounts', ?_⟩
    · simp only [Chroot, hg, ho]
      rw [if_neg (by decide), if_neg (by decide), hmount]
      simp only [hchroot, hchdir, reduceIte]
      exact hw'
    · rw [hrefs']
      simp

/-- Environment for the C3 witness: everything succeeds except the
`syscall.Chroot` root swap. -/
def envC3 : Env := { mkEnv (fun _ => .ok) with chrootOk := false }

/-- A starting world with an empty mount table. -/
def wEmpty : World :=
  { ps := { root := 7, cwd := 11, mounts := [], openRefs := 2 }, tick := 0, tr := [] }

/-- Witness for C3: a failing root swap after all four binds leaves the
mount table and open references as they started, returning only the
chroot error. -/
theorem chroot_failed_entry_unwind_witness :
    ∃ w', Chroot envC3 1 "/t" 3 wEmpty = .ret none [.chrootErr] w' ∧
      w'.ps.mounts = wEmpty.ps.mounts ∧ w'.ps.openRefs = wEmpty.ps.openRefs :=
  (chroot_failed_entry_unwind envC3 1 "/t" 3 wEmpty rfl rfl (fun _ => rfl) (by decide)
    (by decide)).2.1 (by decide) rfl

/-- The process state the exit closure reaches after its three restore
steps (fchdir to the captured root reference, `chroot(".")`, chdir back to
the captured working directory) and before the unmount call. -/
def exitMid (h : SessionHandle) (w : World) : World :=
  { ps := { root := h.rootRef, cwd := h.returnDir, mounts := w.ps.mounts,
            openRefs := w.ps.openRefs },
    tick := w.tick, tr := w.tr ++ [.fchdirRoot, .chroot ".", .chdir h.returnDir] }

/-! ### Claim C2 -/

/-- C2: for every valid target, entering the chroot and then immediately
calling the returned exit function leaves the process's root directory and
working directory identical (by inode) to their values captured before
entry. -/
theorem chroot_roundtrip_identity (env : Env) (fuel : Nat) (target : String)
    (tino : Nat) (w : World)
    (hg : env.getwdOk = true) (ho : env.openRootOk = true)
    (hc : env.chrootOk = true) (hd : env.chdirRootOk = true)
    (hf : env.fchdirOk = true) (hcd : env.chrootDotOk = true)
    (hcr : env.chdirReturnOk = true)
    (hmk : ∀ p m, env.mkdirOk p m = true) (hmt : ∀ p, env.mountOk p = true)
    (hok : ∀ n, env.usched n = .ok) (hfuel : 1 ≤ fuel) :
    ∃ w1 w2,
      Chroot env fuel target tino w =
        .ret (some ⟨w.ps.cwd, w.ps.root, canonicalDevices, target⟩) [] w1 ∧
      chrootExit env fuel ⟨w.ps.cwd, w.ps.root, canonicalDevices, target⟩ w1 =
        .ret none w2 ∧
      w2.ps.root = w.ps.root ∧ w2.ps.cwd = w.ps.cwd := by
  obtain ⟨f, rfl⟩ : ∃ f, fuel = f + 1 := ⟨fuel - 1, by omega⟩
  have hbindok : ∀ d ∈ canonicalDevices, devBindOk env target d = true := by
    intro d _
    rw [devBindOk]
    simp [hmk, hmt]
  have hmount : mountChrootFileSystems env canonicalDevices target
      { w with ps := { w.ps with openRefs := w.ps.openRefs + 1 } } =
        (canonicalDevices, none,
          { w with ps := { w.ps with
                             openRefs := w.ps.openRefs + 1,
                             mounts := w.ps.mounts ++
                               canonicalDevices.map (joinPath target) } }) := by
    rw [mountChrootFileSystems,
      mountLoop_allOk env target canonicalDevices []
        { w with ps := { w.ps with openRefs := w.ps.openRefs + 1 } } hbindok]
    simp
  have h1 : Chroot env (f + 1) target tino w =
      .ret (some ⟨w.ps.cwd, w.ps.root, canonicalDevices, target⟩) []
        { ps := { root := tino, cwd := tino,
                  mounts := w.ps.mounts ++ canonicalDevices.map (joinPath target),
                  openRefs := w.ps.openRefs + 1 },
          tick := w.tick, tr := w.tr ++ [.chroot target, .chdir tino] } := by
    simp only [Chroot, hg, ho]
    rw [if_neg (by decide), if_neg (by decide), hmount]
    simp only [hc, hd, reduceIte]
    simp
  have hx : chrootExit env (f + 1) ⟨w.ps.cwd, w.ps.root, canonicalDevices, target⟩
      { ps := { root := tino, cwd := tino,
                mounts := w.ps.mounts ++ canonicalDevices.map (joinPath target),
                openRefs := w.ps.openRefs + 1 },
        tick := w.tick, tr := w.tr ++ [.chroot target, .chdir tino] } =
      (match (unMountChrootFileSystems env (f + 1) canonicalDevices target
          (exitMid ⟨w.ps.cwd, w.ps.root, canonicalDevices, target⟩
            { ps := { root := tino, cwd := tino,
                      mounts := w.ps.mounts ++ canonicalDevices.map (joinPath target),
                      openRefs := w.ps.openRefs + 1 },
              tick := w.tick, tr := w.tr ++ [.chroot target, .chdir tino] })).out with
        | .ok w4 => ExitRes.ret none w4
        | .err w4 e =>
          .ret (some e) { w4 with ps := { w4.ps with openRefs := w4.ps.openRefs - 1 } }
        | .hang w4 => .hang w4) := by
    simp only [chrootExit, hf, hcd, hcr]
    rw [if_neg (by decide), if_neg (by decide), if_neg (by decide)]
    congr 2
    simp [exitMid]
  rw [unMount_allOk env target f hok canonicalDevices] at hx
  exact ⟨_, _, h1, hx.trans rfl, rfl, rfl⟩

/-- Witness for C2: the round trip on a concrete benign environment. -/
theorem chroot_roundtrip_identity_witness :
    ∃ w1 w2,
      Chroot (mkEnv (fun _ => .ok)) 1 "/t" 3 wEmpty =
        .ret (some ⟨wEmpty.ps.cwd, wEmpty.ps.root, canonicalDevices, "/t"⟩) [] w1 ∧
      chrootExit (mkEnv (fun _ => .ok)) 1
        ⟨wEmpty.ps.cwd, wEmpty.ps.root, canonicalDevices, "/t"⟩ w1 = .ret none w2 ∧
      w2.ps.root = wEmpty.ps.root ∧ w2.ps.cwd = wEmpty.ps.cwd :=
  chroot_roundtrip_identity (mkEnv (fun _ => .ok)) 1 "/t" 3 wEmpty rfl rfl rfl rfl rfl
    rfl rfl (fun _ _ => rfl) (fun _ => rfl) (fun _ => rfl) (by decide)

/-! ### Claim C6 -/

/-- C6: the exit function restores the directory to the captured pre-swap
root reference, reverses the root swap, restores the previous working
directory, and only then unmounts (the trace shows the three restore events
before any unmount event); if the unmount step fails, exit still returns
with root and working directory already restored and reports the unmount
error to the caller. -/
theorem chrootExit_restore_then_unmount (env : Env) (fuel : Nat) (h : SessionHandle)
    (w : World)
    (hf : env.fchdirOk = true) (hcd : env.chrootDotOk = true)
    (hcr : env.chdirReturnOk = true) :
    (∀ w4, (unMountChrootFileSystems env fuel h.devicesToMount h.target
        (exitMid h w)).out = .ok w4 →
      chrootExit env fuel h w = .ret none w4 ∧
      w4.ps.root = h.rootRef ∧ w4.ps.cwd = h.returnDir ∧
      ∃ t, w4.tr = w.tr ++ [.fchdirRoot, .chroot ".", .chdir h.returnDir] ++ t ∧
        ∀ e' ∈ t, isTeardownEv e' = true) ∧
    (∀ w4 e, (unMountChrootFileSystems env fuel h.devicesToMount h.target
        (exitMid h w)).out = .err w4 e →
      chrootExit env fuel h w =
        .ret (some e) { w4 with ps := { w4.ps with openRefs := w4.ps.openRefs - 1 } } ∧
      w4.ps.root = h.rootRef ∧ w4.ps.cwd = h.returnDir ∧
      ∃ t, w4.tr = w.tr ++ [.fchdirRoot, .chroot ".", .chdir h.returnDir] ++ t ∧
        ∀ e' ∈ t, isTeardownEv e' = true) := by
  have hx : chrootExit env fuel h w =
      (match (unMountChrootFileSystems env fuel h.devicesToMount h.target
          (exitMid h w)).out with
        | .ok w4 => .ret none w4
        | .err w4 e =>
          .ret (some e) { w4 with ps := { w4.ps with openRefs := w4.ps.openRefs - 1 } }
        | .hang w4 => .hang w4) := by
    simp only [chrootExit, hf, hcd, hcr]
    rw [if_neg (by decide), if_neg (by decide), if_neg (by decide)]
    congr 2
    simp [exitMid]
  have hframe := unMount_frame env fuel h.devicesToMount h.target (exitMid h w)
  constructor
  · intro w4 hout
    rw [hout] at hframe
    simp only [outWorld] at hframe
    obtain ⟨hr, hc', ho', t, ht, hall⟩ := hframe
    refine ⟨?_, hr, hc', t, ?_, hall⟩
    · rw [hx, hout]
    · rw [ht]
      rfl
  · intro w4 e hout
    rw [hout] at hframe
    simp only [outWorld] at hframe
    obtain ⟨hr, hc', ho', t, ht, hall⟩ := hframe
    refine ⟨?_, hr, hc', t, ?_, hall⟩
    · rw [hx, hout]
    · rw [ht]
      rfl

/-- Environment in which every unmount attempt fails with an unexpected
errno, so the exit teardown fails at once. -/
def envEother : Env := mkEnv (fun _ => .eother)

/-- A concrete session handle for the C6 witness. -/
def hExit : SessionHandle := ⟨11, 7, ["/dev"], "/t"⟩

/-- The world the failing teardown of the C6 witness ends in. -/
def w4C6 : World :=
  { ps := { root := 7, cwd := 11, mounts := [], openRefs := 2 }, tick := 1,
    tr := [.fchdirRoot, .chroot ".", .chdir 11, .unmount "/t/dev"] }

/-- Witness for C6: with the unmount failing immediately, exit returns the
unmount error while root and working directory are already restored, and
the three restore events precede the unmount event in the trace. -/
theorem chrootExit_restore_then_unmount_witness :
    chrootExit envEother 5 hExit wEmpty =
        .ret (some (.errno .eother))
          { w4C6 with ps := { w4C6.ps with openRefs := w4C6.ps.openRefs - 1 } } ∧
      w4C6.ps.root = hExit.rootRef ∧ w4C6.ps.cwd = hExit.returnDir ∧
      ∃ t, w4C6.tr = wEmpty.tr ++ [.fchdirRoot, .chroot ".", .chdir hExit.returnDir] ++ t ∧
        ∀ e' ∈ t, isTeardownEv e' = true :=
  (chrootExit_restore_then_unmount envEother 5 hExit wEmpty rfl rfl rfl).2 w4C6
    (.errno .eother)
    (by simp only [unMountChrootFileSystems, reverseGo_eq, exitMid]; decide)

end Debcomprt
